import Mathlib

/- Shallow embedding of the multilingual support-query handler
(`src/code.py`): language detection with script-range and marker-word
heuristics, translation confidence scoring, remote-call retry with model
fallback, and session metrics aggregation.  Text is modelled as a list of
Unicode code points (Lean `Char`); every remote interaction (the model
listing probe, the chat-completion endpoint, the statistical language
detector) is modelled by an explicit oracle argument. -/

/-- Python whitespace test (`str.strip` / `str.split` semantics), covering
the ASCII whitespace characters. -/
def pyIsSpace (c : Char) : Bool :=
  c == ' ' || c == '\t' || c == '\n' || c == '\r' || c == '\x0b' || c == '\x0c'

/-- Python `str.strip()`: drop leading and trailing whitespace. -/
def pyStrip (l : List Char) : List Char :=
  ((l.dropWhile pyIsSpace).reverse.dropWhile pyIsSpace).reverse

/-- Does `hay` begin with `needle`? -/
def startsWith : List Char → List Char → Bool
  | [], _ => true
  | _ :: _, [] => false
  | a :: as, b :: bs => a == b && startsWith as bs

/-- Python substring containment `needle in hay`. -/
def containsSub : List Char → List Char → Bool
  | needle, [] => needle.isEmpty
  | needle, c :: t => startsWith needle (c :: t) || containsSub needle t

/-- Number of words of Python `str.split()` (maximal non-whitespace runs);
the Boolean records whether the previous character was inside a word. -/
def wordCountAux : Bool → List Char → Nat
  | _, [] => 0
  | inWord, c :: t =>
    if pyIsSpace c then wordCountAux false t
    else if inWord then wordCountAux true t
    else 1 + wordCountAux true t

/-- `len(s.split())` of Python. -/
def wordCount (l : List Char) : Nat := wordCountAux false l

/-- Python `str.lower()` restricted to ASCII letters (the substrings it is
compared against in the source are all ASCII). -/
def pyLower (l : List Char) : List Char := l.map Char.toLower

/-- `re.search` of a single character class `[lo-hi]`: does some code point
of the text lie in the inclusive range? -/
def hasRange (lo hi : Nat) (text : List Char) : Bool :=
  text.any (fun c => decide (lo ≤ c.toNat) && decide (c.toNat ≤ hi))

/-- `MODEL` of the source: the preferred model identifier. -/
def MODEL : String := "llama-3.3-70b-versatile"

/-- `FALLBACK_MODELS` of the source: the fixed ordered fallback list. -/
def FALLBACK_MODELS : List String :=
  ["llama3-70b-8192", "gemma2-9b-it", "mixtral-8x7b-32768"]

/-- Outcome of the startup `GET /models` probe: a transport failure
(the `except` path of `get_active_model`), or a response with a status
code and the list of model ids parsed from its body. -/
inductive ProbeResult where
  | fail : ProbeResult
  | resp (status : Nat) (available : List String) : ProbeResult

/-- The `for fb in FALLBACK_MODELS: if fb in available: return fb` loop of
`get_active_model`: first element of `fbs` present in `available`. -/
def firstAvailable : List String → List String → Option String
  | [], _ => none
  | fb :: rest, available =>
    if available.contains fb then some fb else firstAvailable rest available

/-- `get_active_model` of the source, over a probe oracle: non-200 returns
`MODEL`; 200 with `MODEL` listed returns `MODEL`; 200 without it walks the
fallback list; a transport failure, or no listed fallback, falls through to
`return FALLBACK_MODELS[0]`. -/
def get_active_model (probe : ProbeResult) : String :=
  match probe with
  | .fail => FALLBACK_MODELS.headI
  | .resp status available =>
    if status ≠ 200 then MODEL
    else if available.contains MODEL then MODEL
    else
      match firstAvailable FALLBACK_MODELS available with
      | some fb => fb
      | none => FALLBACK_MODELS.headI

/-- `hindi_markers` of `detect_language`. -/
def hindi_markers : List (List Char) :=
  ["है".toList, "हैं".toList, "का".toList, "की".toList, "के".toList,
   "में".toList, "को".toList, "से".toList, "ने".toList, "और".toList,
   "या".toList, "हो".toList, "हे".toList]

/-- `marathi_markers` of `detect_language`. -/
def marathi_markers : List (List Char) :=
  ["आहे".toList, "आहेत".toList, "च्या".toList, "ला".toList, "ने".toList,
   "मध्ये".toList, "आणि".toList, "किंवा".toList]

/-- `sum(1 for marker in markers if marker in text)`. -/
def countMarkers (markers : List (List Char)) (text : List Char) : Nat :=
  (markers.filter (fun m => containsSub m text)).length

/-- `hindi_count` computed by `detect_language`. -/
def hindi_count (text : List Char) : Nat := countMarkers hindi_markers text

/-- `marathi_count` computed by `detect_language`. -/
def marathi_count (text : List Char) : Nat := countMarkers marathi_markers text

/-- `detect_language` of the source.  `ld` is the oracle for the
statistical detector `langdetect.detect(text)`: `some code` for a result,
`none` for the exception path. -/
def detect_language (text : List Char) (ld : Option String) : String :=
  if pyStrip text = [] then "en"
  else if hasRange 0x400 0x4FF text then "ru"
  else if hasRange 0x4e00 0x9fff text then "zh"
  else if hasRange 0xac00 0xd7af text then "ko"
  else if hasRange 0x3040 0x30ff text then "ja"
  else if hasRange 0x900 0x97F text then
    if hindi_count text < marathi_count text ∧ 0 < marathi_count text then "mr"
    else if 0 < hindi_count text then "hi"
    else
      match ld with
      | some detected => if detected = "hi" ∨ detected = "mr" then detected else "hi"
      | none => "hi"
  else ld.getD "en"

/-- One attempt's outcome at the chat-completion endpoint: HTTP 200 with
content, a non-200 response carrying a status and the parsed
`error.message`, or a `requests` exception with its message. -/
inductive ApiResponse where
  | ok (content : List Char) : ApiResponse
  | http (status : Nat) (errMsg : List Char) : ApiResponse
  | transportErr (cause : List Char) : ApiResponse

/-- Typed rendering of the strings `call_groq_api` returns: the trimmed
content, `"API Error: {status}"`, `"Network Error: {cause}"`, and
`"API Error: Failed after retries"`. -/
inductive ApiResult where
  | success (text : List Char) : ApiResult
  | apiError (status : Nat) : ApiResult
  | networkError (cause : List Char) : ApiResult
  | exhausted : ApiResult

/-- Final state of one `call_groq_api` call: the returned result, the value
of the global `ACTIVE_MODEL` afterwards, and how many requests were sent. -/
structure CallOutcome where
  result : ApiResult
  model : String
  attempts : Nat

/-- `"decommissioned" in msg or "not found" in msg`. -/
def isDecommMsg (msg : List Char) : Bool :=
  containsSub "decommissioned".toList msg || containsSub "not found".toList msg

/-- The `for attempt in range(3)` loop of `call_groq_api`.  Each list entry
is the endpoint's behaviour on that attempt as a function of the model id in
the payload; the `String` argument is the current `ACTIVE_MODEL` (also the
payload's model).  A decommissioned/not-found 400 overwrites the model with
`FALLBACK_MODELS[0]` and continues; a transport error on the last attempt
(`attempt == 2`, i.e. no entries remain) returns the network error;
an exhausted list is the `return` after the loop. -/
def callLoop : List (String → ApiResponse) → String → Nat → CallOutcome
  | [], model, used => ⟨.exhausted, model, used⟩
  | r :: rest, model, used =>
    match r model with
    | .ok content => ⟨.success (pyStrip content), model, used + 1⟩
    | .http status msg =>
      if status = 400 then
        if isDecommMsg msg then callLoop rest FALLBACK_MODELS.headI (used + 1)
        else ⟨.apiError status, model, used + 1⟩
      else ⟨.apiError status, model, used + 1⟩
    | .transportErr cause =>
      if rest.isEmpty then ⟨.networkError cause, model, used + 1⟩
      else callLoop rest model (used + 1)

/-- `call_groq_api` of the source: exactly three attempts are budgeted. -/
def call_groq_api (r0 r1 r2 : String → ApiResponse) (model : String) : CallOutcome :=
  callLoop [r0, r1, r2] model 0

/-- The word-count confidence ladder of `translate_to_english`
(lines `confidence = 80.0` through the two threshold `if`s). -/
def prePenalty (translation : List Char) : ℚ :=
  let confidence : ℚ := 80
  let confidence := if wordCount translation ≥ 3 then (90 : ℚ) else confidence
  let confidence := if wordCount translation ≥ 6 then (95 : ℚ) else confidence
  confidence

/-- The error-leak substrings checked against the lowercased translation. -/
def errorSubs : List (List Char) :=
  ["error".toList, "failed".toList, "http".toList]

/-- `any(x in translation.lower() for x in ["error", "failed", "http"])`. -/
def hasErrSub (translation : List Char) : Bool :=
  errorSubs.any (fun x => containsSub x (pyLower translation))

/-- The confidence value `translate_to_english` pairs with a remote
translation: the ladder value, penalised by 15 with floor 60 when an error
substring leaks into the text. -/
def confidence_of (translation : List Char) : ℚ :=
  if hasErrSub translation then max (prePenalty translation - 15) 60
  else prePenalty translation

/-- `translate_to_english` of the source.  `remote` is the oracle for the
string `call_groq_api(messages, max_tokens=300)` returns for the translation
request; the `"en"` branch returns before any request is built. -/
def translate_to_english (text : List Char) (lang_code : String)
    (remote : List Char) : List Char × ℚ :=
  if lang_code = "en" then (pyStrip text, 100)
  else (remote, confidence_of remote)

/-- One entry of `TranslationMetrics.queries` (the timestamp string, pure
presentation, is omitted). -/
structure QueryRecord where
  language : String
  original : List Char
  translation : List Char
  confidence : ℚ
  response_time : ℚ

/-- `TranslationMetrics.log_query`: append one record, truncating both text
fields to their first 100 code points. -/
def log_query (qs : List QueryRecord) (lang : String)
    (original translation : List Char) (conf time : ℚ) : List QueryRecord :=
  qs ++ [⟨lang, original.take 100, translation.take 100, conf, time⟩]

/-- One step of the `lang_counts[lang] = lang_counts.get(lang, 0) + 1` loop
over an insertion-ordered association list (Python dict order). -/
def bump : List (String × Nat) → String → List (String × Nat)
  | [], lang => [(lang, 1)]
  | (l, c) :: t, lang =>
    if l = lang then (l, c + 1) :: t else (l, c) :: bump t lang

/-- The `lang_counts` dict built by `show_summary`, in insertion order. -/
def langCounts (qs : List QueryRecord) : List (String × Nat) :=
  qs.foldl (fun acc q => bump acc q.language) []

/-- Stable descending insertion by count: walk past strictly greater counts
so that equal counts keep their original relative order. -/
def insertDesc (p : String × Nat) : List (String × Nat) → List (String × Nat)
  | [] => [p]
  | q :: t => if p.2 < q.2 then q :: insertDesc p t else p :: q :: t

/-- `sorted(lang_counts.items(), key=lambda x: x[1], reverse=True)`:
Python's sort is stable, and `reverse=True` keeps ties in original order. -/
def sortDesc : List (String × Nat) → List (String × Nat)
  | [] => []
  | p :: t => insertDesc p (sortDesc t)

/-- The numbers `show_summary` prints for a non-empty session (the session
duration, which reads the wall clock, is omitted). -/
structure SummaryView where
  total : Nat
  lang_counts : List (String × Nat)
  avg_conf : ℚ
  avg_time : ℚ

/-- `TranslationMetrics.show_summary` as a read-only projection: `none` is
the early `"No queries processed yet"` return. -/
def show_summary (qs : List QueryRecord) : Option SummaryView :=
  if qs.isEmpty then none
  else some
    { total := qs.length
      lang_counts := sortDesc (langCounts qs)
      avg_conf := (qs.map QueryRecord.confidence).sum / qs.length
      avg_time := (qs.map QueryRecord.response_time).sum / qs.length }

/-! ### Helper lemmas -/

lemma firstAvailable_cons (x : String) (rest avail : List String) :
    firstAvailable (x :: rest) avail
      = if avail.contains x then some x else firstAvailable rest avail := rfl

lemma firstAvailable_mem {fbs avail : List String} {fb : String}
    (h : firstAvailable fbs avail = some fb) : fb ∈ fbs := by
  induction fbs with
  | nil => simp [firstAvailable] at h
  | cons x rest ih =>
    rw [firstAvailable_cons] at h
    by_cases hx : avail.contains x = true
    · rw [if_pos hx] at h
      have hxe := Option.some.inj h
      subst hxe
      exact List.mem_cons_self _ _
    · rw [if_neg hx] at h
      exact List.mem_cons_of_mem _ (ih h)

lemma firstAvailable_spec (fbs avail : List String) :
    (∃ fb pre post, firstAvailable fbs avail = some fb
      ∧ fbs = pre ++ fb :: post
      ∧ avail.contains fb = true
      ∧ ∀ x ∈ pre, avail.contains x = false)
    ∨ (firstAvailable fbs avail = none
      ∧ ∀ x ∈ fbs, avail.contains x = false) := by
  induction fbs with
  | nil => right; simp [firstAvailable]
  | cons x rest ih =>
    by_cases hx : avail.contains x = true
    · left
      exact ⟨x, [], rest, by rw [firstAvailable_cons, if_pos hx], rfl, hx, by simp⟩
    · have hxf : avail.contains x = false := by
        cases hcx : avail.contains x
        · rfl
        · exact absurd hcx hx
      rcases ih with ⟨fb, pre, post, heq, hdec, hc, hpre⟩ | ⟨heq, hall⟩
      · left
        refine ⟨fb, x :: pre, post, ?_, by simp [hdec], hc, ?_⟩
        · rw [firstAvailable_cons, if_neg hx, heq]
        · intro y hy
          rcases List.mem_cons.mp hy with rfl | hy
          · exact hxf
          · exact hpre y hy
      · right
        refine ⟨by rw [firstAvailable_cons, if_neg hx, heq], ?_⟩
        intro y hy
        rcases List.mem_cons.mp hy with rfl | hy
        · exact hxf
        · exact hall y hy

lemma callLoop_model_cases (rs : List (String → ApiResponse)) (model : String) (used : Nat) :
    (callLoop rs model used).model = model
    ∨ ((callLoop rs model used).model = FALLBACK_MODELS.headI
        ∧ ∃ r ∈ rs, ∃ mm msg, r mm = ApiResponse.http 400 msg ∧ isDecommMsg msg = true) := by
  induction rs generalizing model used with
  | nil => left; rfl
  | cons r rest ih =>
    cases h : r model with
    | ok content => left; simp [callLoop, h]
    | http status msg =>
      by_cases h4 : status = 400
      · subst h4
        by_cases hd : isDecommMsg msg = true
        · right
          constructor
          · have hred : callLoop (r :: rest) model used
                = callLoop rest FALLBACK_MODELS.headI (used + 1) := by
              simp [callLoop, h, hd]
            rw [hred]
            rcases ih FALLBACK_MODELS.headI (used + 1) with hm | ⟨hm, _⟩
            · exact hm
            · exact hm
          · exact ⟨r, List.mem_cons_self r rest, model, msg, h, hd⟩
        · left; simp [callLoop, h, hd]
      · left; simp [callLoop, h, h4]
    | transportErr cause =>
      by_cases he : rest = []
      · left; simp [callLoop, h, he]
      · have hne : rest.isEmpty = false := by
          cases rest with
          | nil => exact absurd rfl he
          | cons a t => rfl
        have hred : callLoop (r :: rest) model used = callLoop rest model (used + 1) := by
          simp [callLoop, h, hne]
        rw [hred]
        rcases ih model (used + 1) with hm | ⟨hm, r2, hr2, mm, msg, hq, hdq⟩
        · left; exact hm
        · right; exact ⟨hm, r2, List.mem_cons_of_mem _ hr2, mm, msg, hq, hdq⟩

lemma insertDesc_perm (p : String × Nat) (l : List (String × Nat)) :
    (insertDesc p l).Perm (p :: l) := by
  induction l with
  | nil => exact List.Perm.refl _
  | cons q t ih =>
    by_cases h : p.2 < q.2
    · rw [show insertDesc p (q :: t) = q :: insertDesc p t from by simp [insertDesc, h]]
      exact (ih.cons q).trans (List.Perm.swap p q t)
    · rw [show insertDesc p (q :: t) = p :: q :: t from by simp [insertDesc, h]]

lemma sortDesc_perm (l : List (String × Nat)) : (sortDesc l).Perm l := by
  induction l with
  | nil => exact List.Perm.refl _
  | cons p t ih => exact (insertDesc_perm p (sortDesc t)).trans (ih.cons p)

lemma insertDesc_pairwise {p : String × Nat} {l : List (String × Nat)}
    (h : l.Pairwise (fun a b => b.2 ≤ a.2)) :
    (insertDesc p l).Pairwise (fun a b => b.2 ≤ a.2) := by
  induction l with
  | nil => simp [insertDesc]
  | cons q t ih =>
    rw [List.pairwise_cons] at h
    obtain ⟨hq, ht⟩ := h
    by_cases hlt : p.2 < q.2
    · rw [show insertDesc p (q :: t) = q :: insertDesc p t from by simp [insertDesc, hlt]]
      rw [List.pairwise_cons]
      refine ⟨?_, ih ht⟩
      intro x hx
      have hx2 : x ∈ p :: t := (insertDesc_perm p t).mem_iff.mp hx
      rcases List.mem_cons.mp hx2 with rfl | hx3
      · exact Nat.le_of_lt hlt
      · exact hq x hx3
    · rw [show insertDesc p (q :: t) = p :: q :: t from by simp [insertDesc, hlt]]
      rw [List.pairwise_cons]
      refine ⟨?_, by rw [List.pairwise_cons]; exact ⟨hq, ht⟩⟩
      intro x hx
      rcases List.mem_cons.mp hx with rfl | hx2
      · exact Nat.le_of_not_lt hlt
      · exact le_trans (hq x hx2) (Nat.le_of_not_lt hlt)

lemma sortDesc_pairwise (l : List (String × Nat)) :
    (sortDesc l).Pairwise (fun a b => b.2 ≤ a.2) := by
  induction l with
  | nil => simp [sortDesc]
  | cons p t ih => exact insertDesc_pairwise ih

lemma insertDesc_filter (p : String × Nat) (l : List (String × Nat)) (c : Nat) :
    (insertDesc p l).filter (fun q => q.2 == c)
      = ((p :: l).filter (fun q => q.2 == c)) := by
  induction l with
  | nil => rfl
  | cons q t ih =>
    by_cases hlt : p.2 < q.2
    · rw [show insertDesc p (q :: t) = q :: insertDesc p t from by simp [insertDesc, hlt]]
      by_cases hpc : p.2 = c
      · have hqc : (q.2 == c) = false := by
          simp only [beq_eq_false_iff_ne]
          omega
        have hpc2 : (p.2 == c) = true := by simpa using hpc
        simp only [List.filter_cons, hqc, ih, hpc2]
        simp
      · have hpc2 : (p.2 == c) = false := by simpa using hpc
        simp only [List.filter_cons, ih, hpc2]
        simp
    · rw [show insertDesc p (q :: t) = p :: q :: t from by simp [insertDesc, hlt]]

lemma sortDesc_filter (l : List (String × Nat)) (c : Nat) :
    (sortDesc l).filter (fun q => q.2 == c) = l.filter (fun q => q.2 == c) := by
  induction l with
  | nil => rfl
  | cons p t ih =>
    rw [show sortDesc (p :: t) = insertDesc p (sortDesc t) from rfl, insertDesc_filter]
    simp only [List.filter_cons, ih]

lemma prePenalty_eq (t : List Char) :
    prePenalty t = if 6 ≤ wordCount t then (95 : ℚ)
      else if 3 ≤ wordCount t then (90 : ℚ) else (80 : ℚ) := by
  unfold prePenalty
  by_cases h6 : 6 ≤ wordCount t
  · have h3 : 3 ≤ wordCount t := by omega
    simp [ge_iff_le, h3, h6]
  · by_cases h3 : 3 ≤ wordCount t <;> simp [ge_iff_le, h3, h6]

/-! ### Claims -/

/-- C1 counterexample: on a non-200 model-listing response the probe
returns the preferred model `MODEL`, which is not a fallback — contradicting
the claim that in this case it walks the fallback list and never returns the
preferred model. -/
theorem C1_counterexample :
    get_active_model (ProbeResult.resp 500 []) = MODEL
    ∧ MODEL ∉ FALLBACK_MODELS := by
  constructor
  · rfl
  · decide

/-- C1 (amended): on transport failure the probe returns the first fallback
unconditionally; on a non-200 listing response it returns the preferred
model; when the listing succeeds with status 200 and the preferred model is
absent, it walks the fallback list in order and returns the first fallback
present in the listing, or the first fallback unconditionally if none is
present. -/
theorem C1_probe_fallback :
    (get_active_model ProbeResult.fail = FALLBACK_MODELS.headI)
    ∧ (∀ status available, status ≠ 200 →
        get_active_model (ProbeResult.resp status available) = MODEL)
    ∧ (∀ available : List String, available.contains MODEL = false →
        (∃ pre post, FALLBACK_MODELS
              = pre ++ get_active_model (ProbeResult.resp 200 available) :: post
            ∧ available.contains (get_active_model (ProbeResult.resp 200 available)) = true
            ∧ ∀ x ∈ pre, available.contains x = false)
        ∨ ((∀ x ∈ FALLBACK_MODELS, available.contains x = false)
            ∧ get_active_model (ProbeResult.resp 200 available) = FALLBACK_MODELS.headI)) := by
  refine ⟨rfl, ?_, ?_⟩
  · intro status available hs
    simp [get_active_model, hs]
  · intro available hM
    have hM2 : ¬ (available.contains MODEL = true) := by rw [hM]; simp
    have hred : get_active_model (ProbeResult.resp 200 available)
        = match firstAvailable FALLBACK_MODELS available with
          | some fb => fb
          | none => FALLBACK_MODELS.headI := by
      simp only [get_active_model]
      rw [if_neg (by simp), if_neg hM2]
    rcases firstAvailable_spec FALLBACK_MODELS available with
      ⟨fb, pre, post, heq, hdec, hc, hpre⟩ | ⟨heq, hall⟩
    · left
      rw [hred, heq]
      exact ⟨pre, post, hdec, hc, hpre⟩
    · right
      rw [hred, heq]
      exact ⟨hall, rfl⟩

/-- C1 witness: a 200 listing missing the preferred model but containing the
second fallback makes the probe return that second fallback (the first
fallback is absent). -/
theorem C1_probe_fallback_witness :
    (["gemma2-9b-it"] : List String).contains MODEL = false
    ∧ get_active_model (ProbeResult.resp 418 ["x"]) = MODEL
    ∧ ((∃ pre post, FALLBACK_MODELS
          = pre ++ get_active_model (ProbeResult.resp 200 ["gemma2-9b-it"]) :: post
        ∧ (["gemma2-9b-it"] : List String).contains
            (get_active_model (ProbeResult.resp 200 ["gemma2-9b-it"])) = true
        ∧ ∀ x ∈ pre, (["gemma2-9b-it"] : List String).contains x = false)
      ∨ ((∀ x ∈ FALLBACK_MODELS, (["gemma2-9b-it"] : List String).contains x = false)
        ∧ get_active_model (ProbeResult.resp 200 ["gemma2-9b-it"]) = FALLBACK_MODELS.headI)) :=
  ⟨by decide,
   C1_probe_fallback.2.1 418 ["x"] (by decide),
   C1_probe_fallback.2.2 ["gemma2-9b-it"] (by decide)⟩

/-- C3: an HTTP 400 whose error message contains "decommissioned" or
"not found" overwrites the active model with the first fallback, substitutes
it into the pending payload, and retries immediately; with a single such
response followed by success there is exactly one retry (2 requests total),
the retry is answered at the substituted model, and the result is the
trimmed success content. -/
theorem C3_decommission_retry (r0 r1 r2 : String → ApiResponse)
    (model0 : String) (msg content : List Char)
    (h0 : r0 model0 = ApiResponse.http 400 msg)
    (hmsg : isDecommMsg msg = true)
    (h1 : r1 FALLBACK_MODELS.headI = ApiResponse.ok content) :
    call_groq_api r0 r1 r2 model0
      = ⟨ApiResult.success (pyStrip content), FALLBACK_MODELS.headI, 2⟩ := by
  simp [call_groq_api, callLoop, h0, hmsg, h1]

/-- C3 witness: a concrete decommissioned-model 400 followed by a success. -/
theorem C3_decommission_retry_witness :
    isDecommMsg "model llama has been decommissioned".toList = true
    ∧ call_groq_api
        (fun _ => ApiResponse.http 400 "model llama has been decommissioned".toList)
        (fun _ => ApiResponse.ok " fine ".toList)
        (fun _ => ApiResponse.transportErr [])
        MODEL
      = ⟨ApiResult.success (pyStrip " fine ".toList), FALLBACK_MODELS.headI, 2⟩ :=
  ⟨by decide,
   C3_decommission_retry _ _ _ MODEL "model llama has been decommissioned".toList
     " fine ".toList rfl (by decide) rfl⟩

/-- C5: three consecutive transport-level failures make `call_groq_api`
return the typed network-error result carrying the third failure's cause,
after exactly 3 attempts and no more. -/
theorem C5_network_error (r0 r1 r2 : String → ApiResponse)
    (model0 : String) (c0 c1 c2 : List Char)
    (h0 : r0 model0 = ApiResponse.transportErr c0)
    (h1 : r1 model0 = ApiResponse.transportErr c1)
    (h2 : r2 model0 = ApiResponse.transportErr c2) :
    call_groq_api r0 r1 r2 model0 = ⟨ApiResult.networkError c2, model0, 3⟩ := by
  simp [call_groq_api, callLoop, h0, h1, h2]

/-- C5 witness: three concrete timeouts. -/
theorem C5_network_error_witness :
    call_groq_api
      (fun _ => ApiResponse.transportErr "timeout 1".toList)
      (fun _ => ApiResponse.transportErr "timeout 2".toList)
      (fun _ => ApiResponse.transportErr "timeout 3".toList)
      MODEL
    = ⟨ApiResult.networkError "timeout 3".toList, MODEL, 3⟩ :=
  C5_network_error _ _ _ MODEL _ _ _ rfl rfl rfl

/-- C9: the active model stays inside `{MODEL} ∪ FALLBACK_MODELS`: the
startup probe always returns a member of that set, `call_groq_api` preserves
membership, and the model after a call either is unchanged or equals the
first fallback with some attempt having been answered by a
decommissioned/not-found 400 (the only overwriting path). -/
theorem C9_active_model_invariant :
    (∀ probe, get_active_model probe ∈ MODEL :: FALLBACK_MODELS)
    ∧ (∀ (r0 r1 r2 : String → ApiResponse) (m : String),
        m ∈ MODEL :: FALLBACK_MODELS →
        (call_groq_api r0 r1 r2 m).model ∈ MODEL :: FALLBACK_MODELS)
    ∧ (∀ (r0 r1 r2 : String → ApiResponse) (m : String),
        (call_groq_api r0 r1 r2 m).model = m
        ∨ ((call_groq_api r0 r1 r2 m).model = FALLBACK_MODELS.headI
            ∧ ∃ r ∈ [r0, r1, r2], ∃ mm msg,
                r mm = ApiResponse.http 400 msg ∧ isDecommMsg msg = true)) := by
  refine ⟨?_, ?_, ?_⟩
  · intro probe
    cases probe with
    | fail => decide
    | resp status available =>
      simp only [get_active_model]
      by_cases hs : status ≠ 200
      · rw [if_pos hs]; decide
      · rw [if_neg hs]
        by_cases hM : available.contains MODEL = true
        · rw [if_pos hM]; decide
        · rw [if_neg hM]
          cases hfa : firstAvailable FALLBACK_MODELS available with
          | none => simp only [hfa]; decide
          | some fb =>
            simp only [hfa]
            exact List.mem_cons_of_mem _ (firstAvailable_mem hfa)
  · intro r0 r1 r2 m hm
    rcases callLoop_model_cases [r0, r1, r2] m 0 with hcase | ⟨hcase, _⟩
    · rw [show (call_groq_api r0 r1 r2 m).model = m from hcase]
      exact hm
    · rw [show (call_groq_api r0 r1 r2 m).model = FALLBACK_MODELS.headI from hcase]
      decide
  · intro r0 r1 r2 m
    exact callLoop_model_cases [r0, r1, r2] m 0

/-- C9 witness: the invariant at a concrete probe result and a concrete
successful call. -/
theorem C9_active_model_invariant_witness :
    get_active_model (ProbeResult.resp 200 []) ∈ MODEL :: FALLBACK_MODELS
    ∧ MODEL ∈ MODEL :: FALLBACK_MODELS
    ∧ (call_groq_api (fun _ => ApiResponse.ok "hello".toList)
        (fun _ => ApiResponse.ok "hello".toList)
        (fun _ => ApiResponse.ok "hello".toList) MODEL).model
        ∈ MODEL :: FALLBACK_MODELS :=
  ⟨C9_active_model_invariant.1 (ProbeResult.resp 200 []),
   by decide,
   C9_active_model_invariant.2.1 _ _ _ MODEL (by decide)⟩

/-- C7: for language code "en", `translate_to_english` returns the input
trimmed of surrounding whitespace with confidence exactly 100.0, and its
result does not depend on the remote completion oracle (no remote call is
consulted). -/
theorem C7_en_identity (text : List Char) (remote1 remote2 : List Char) :
    translate_to_english text "en" remote1 = (pyStrip text, 100)
    ∧ translate_to_english text "en" remote1 = translate_to_english text "en" remote2 := by
  constructor <;> simp [translate_to_english]

/-- C4: for a non-English translation, the returned confidence is
`confidence_of` the remote text; the pre-penalty ladder value is exactly one
of 80, 90, 95, determined solely by the word-count thresholds 3 and 6 with
the highest met threshold winning; an error substring subtracts 15 with
floor 60; and the final confidence never drops below 60. -/
theorem C4_confidence (lang_code : String) (hlc : lang_code ≠ "en")
    (text remote : List Char) :
    (translate_to_english text lang_code remote).2 = confidence_of remote
    ∧ (prePenalty remote = 80 ∨ prePenalty remote = 90 ∨ prePenalty remote = 95)
    ∧ (wordCount remote < 3 → prePenalty remote = 80)
    ∧ (3 ≤ wordCount remote → wordCount remote < 6 → prePenalty remote = 90)
    ∧ (6 ≤ wordCount remote → prePenalty remote = 95)
    ∧ (hasErrSub remote = true →
        confidence_of remote = max (prePenalty remote - 15) 60)
    ∧ (hasErrSub remote = false → confidence_of remote = prePenalty remote)
    ∧ 60 ≤ confidence_of remote := by
  have hladder : prePenalty remote = 80 ∨ prePenalty remote = 90 ∨ prePenalty remote = 95 := by
    rw [prePenalty_eq]
    by_cases h6 : 6 ≤ wordCount remote
    · right; right; simp [h6]
    · by_cases h3 : 3 ≤ wordCount remote
      · right; left; simp [h3, h6]
      · left; simp [h3, h6]
  have hfloor : 60 ≤ confidence_of remote := by
    unfold confidence_of
    by_cases herr : hasErrSub remote = true
    · rw [if_pos herr]
      exact le_max_right _ _
    · rw [if_neg herr]
      rcases hladder with h | h | h <;> rw [h] <;> norm_num
  refine ⟨by simp [translate_to_english, hlc], hladder, ?_, ?_, ?_, ?_, ?_, hfloor⟩
  · intro h
    rw [prePenalty_eq, if_neg (by omega), if_neg (by omega)]
  · intro h3 h6
    rw [prePenalty_eq, if_neg (by omega), if_pos h3]
  · intro h6
    rw [prePenalty_eq, if_pos h6]
  · intro herr
    unfold confidence_of
    rw [if_pos herr]
  · intro herr
    unfold confidence_of
    rw [if_neg (by rw [herr]; simp)]

/-- C4 witness: a Spanish-tagged translation whose remote text leaks the
word "Error": the thresholds and the floor evaluate as claimed. -/
theorem C4_confidence_witness :
    (translate_to_english "hola".toList "es" "Error one two".toList).2
      = confidence_of "Error one two".toList
    ∧ 60 ≤ confidence_of "Error one two".toList
    ∧ prePenalty "Error one two".toList = 90 :=
  ⟨(C4_confidence "es" (by decide) "hola".toList "Error one two".toList).1,
   (C4_confidence "es" (by decide) "hola".toList "Error one two".toList).2.2.2.2.2.2.2,
   (C4_confidence "es" (by decide) "hola".toList "Error one two".toList).2.2.2.1
     (by decide) (by decide)⟩

/-- C8: `detect_language` is total and degrading: empty and whitespace-only
input yield "en" for every detector oracle, and when the statistical
detector fails (oracle `none`) the result is still one of the fixed codes —
every internal failure is absorbed, never surfaced. -/
theorem C8_detect_total :
    (∀ ld, detect_language "".toList ld = "en")
    ∧ (∀ ld, detect_language "   ".toList ld = "en")
    ∧ (∀ text, detect_language text none
        ∈ (["en", "ru", "zh", "ko", "ja", "mr", "hi"] : List String)) := by
  refine ⟨fun ld => rfl, fun ld => ?_, fun text => ?_⟩
  · unfold detect_language
    rw [if_pos (by decide)]
  · unfold detect_language
    by_cases h0 : pyStrip text = []
    · rw [if_pos h0]; decide
    · rw [if_neg h0]
      by_cases h1 : hasRange 0x400 0x4FF text = true
      · rw [if_pos h1]; decide
      · rw [if_neg h1]
        by_cases h2 : hasRange 0x4e00 0x9fff text = true
        · rw [if_pos h2]; decide
        · rw [if_neg h2]
          by_cases h3 : hasRange 0xac00 0xd7af text = true
          · rw [if_pos h3]; decide
          · rw [if_neg h3]
            by_cases h4 : hasRange 0x3040 0x30ff text = true
            · rw [if_pos h4]; decide
            · rw [if_neg h4]
              by_cases h5 : hasRange 0x900 0x97F text = true
              · rw [if_pos h5]
                by_cases hmr : hindi_count text < marathi_count text ∧ 0 < marathi_count text
                · rw [if_pos hmr]; decide
                · rw [if_neg hmr]
                  by_cases hhi : 0 < hindi_count text
                  · rw [if_pos hhi]; decide
                  · rw [if_neg hhi]; decide
              · rw [if_neg h5]; decide

/-- C2: on Devanagari text (no earlier-matching script range, not
whitespace-only) in which at least one marker of either list occurs,
`detect_language` returns "mr" exactly when the Marathi marker count exceeds
the Hindi marker count and is positive, and otherwise returns "hi". -/
theorem C2_devanagari_decision (text : List Char) (ld : Option String)
    (h0 : pyStrip text ≠ [])
    (h1 : hasRange 0x400 0x4FF text = false)
    (h2 : hasRange 0x4e00 0x9fff text = false)
    (h3 : hasRange 0xac00 0xd7af text = false)
    (h4 : hasRange 0x3040 0x30ff text = false)
    (h5 : hasRange 0x900 0x97F text = true)
    (h6 : 0 < hindi_count text ∨ 0 < marathi_count text) :
    (detect_language text ld = "mr"
      ↔ (hindi_count text < marathi_count text ∧ 0 < marathi_count text))
    ∧ (¬ (hindi_count text < marathi_count text ∧ 0 < marathi_count text) →
        detect_language text ld = "hi") := by
  have key : detect_language text ld
      = if hindi_count text < marathi_count text ∧ 0 < marathi_count text
        then "mr" else "hi" := by
    unfold detect_language
    rw [if_neg h0, if_neg (by rw [h1]; simp), if_neg (by rw [h2]; simp),
      if_neg (by rw [h3]; simp), if_neg (by rw [h4]; simp), if_pos h5]
    by_cases hmr : hindi_count text < marathi_count text ∧ 0 < marathi_count text
    · rw [if_pos hmr, if_pos hmr]
    · have hhi : 0 < hindi_count text := by omega
      rw [if_neg hmr, if_neg hmr, if_pos hhi]
  refine ⟨⟨?_, ?_⟩, ?_⟩
  · intro h
    by_contra hmr
    rw [key, if_neg hmr] at h
    exact absurd h (by decide)
  · intro hmr
    rw [key, if_pos hmr]
  · intro hmr
    rw [key, if_neg hmr]

/-- C2 witness: a Devanagari text with Marathi count 2 and Hindi count 1
is detected as "mr", and one with Hindi count 2 and Marathi count 0 as "hi",
via the decision theorem. -/
theorem C2_devanagari_decision_witness :
    hindi_count "ला मध्ये है".toList = 1
    ∧ marathi_count "ला मध्ये है".toList = 2
    ∧ detect_language "ला मध्ये है".toList none = "mr"
    ∧ hindi_count "का की".toList = 2
    ∧ marathi_count "का की".toList = 0
    ∧ detect_language "का की".toList none = "hi" :=
  ⟨by decide, by decide,
   (C2_devanagari_decision "ला मध्ये है".toList none (by decide) (by decide) (by decide)
      (by decide) (by decide) (by decide) (by decide)).1.mpr (by decide),
   by decide, by decide,
   (C2_devanagari_decision "का की".toList none (by decide) (by decide) (by decide)
      (by decide) (by decide) (by decide) (by decide)).2 (by decide)⟩

/-- C10: the marker "ने" belongs to both marker lists, so a Devanagari text
containing "ने" and no other marker of either list has Hindi count 1 and
Marathi count 1; the Marathi count does not exceed the Hindi count and
`detect_language` returns "hi". -/
theorem C10_shared_marker (text : List Char) (ld : Option String)
    (h0 : pyStrip text ≠ [])
    (h1 : hasRange 0x400 0x4FF text = false)
    (h2 : hasRange 0x4e00 0x9fff text = false)
    (h3 : hasRange 0xac00 0xd7af text = false)
    (h4 : hasRange 0x3040 0x30ff text = false)
    (h5 : hasRange 0x900 0x97F text = true)
    (hne : containsSub "ने".toList text = true)
    (ha1 : containsSub "है".toList text = false)
    (ha2 : containsSub "हैं".toList text = false)
    (ha3 : containsSub "का".toList text = false)
    (ha4 : containsSub "की".toList text = false)
    (ha5 : containsSub "के".toList text = false)
    (ha6 : containsSub "में".toList text = false)
    (ha7 : containsSub "को".toList text = false)
    (ha8 : containsSub "से".toList text = false)
    (ha9 : containsSub "और".toList text = false)
    (ha10 : containsSub "या".toList text = false)
    (ha11 : containsSub "हो".toList text = false)
    (ha12 : containsSub "हे".toList text = false)
    (hb1 : containsSub "आहे".toList text = false)
    (hb2 : containsSub "आहेत".toList text = false)
    (hb3 : containsSub "च्या".toList text = false)
    (hb4 : containsSub "ला".toList text = false)
    (hb5 : containsSub "मध्ये".toList text = false)
    (hb6 : containsSub "आणि".toList text = false)
    (hb7 : containsSub "किंवा".toList text = false) :
    "ने".toList ∈ hindi_markers
    ∧ "ने".toList ∈ marathi_markers
    ∧ hindi_count text = 1
    ∧ marathi_count text = 1
    ∧ detect_language text ld = "hi" := by
  have hhc : hindi_count text = 1 := by
    simp only [hindi_count, countMarkers, hindi_markers, List.filter_cons, List.filter_nil,
      hne, ha1, ha2, ha3, ha4, ha5, ha6, ha7, ha8, ha9, ha10, ha11, ha12]
    simp
  have hmc : marathi_count text = 1 := by
    simp only [marathi_count, countMarkers, marathi_markers, List.filter_cons, List.filter_nil,
      hne, hb1, hb2, hb3, hb4, hb5, hb6, hb7]
    simp
  refine ⟨by decide, by decide, hhc, hmc, ?_⟩
  unfold detect_language
  rw [if_neg h0, if_neg (by rw [h1]; simp), if_neg (by rw [h2]; simp),
    if_neg (by rw [h3]; simp), if_neg (by rw [h4]; simp), if_pos h5,
    if_neg (by rw [hhc, hmc]; simp), if_pos (by rw [hhc]; norm_num)]

/-- C10 witness: the one-token text "ने" itself. -/
theorem C10_shared_marker_witness :
    hindi_count "ने".toList = 1
    ∧ marathi_count "ने".toList = 1
    ∧ detect_language "ने".toList none = "hi" := by
  have h := C10_shared_marker "ने".toList none (by decide) (by decide) (by decide)
    (by decide) (by decide) (by decide) (by decide) (by decide) (by decide) (by decide)
    (by decide) (by decide) (by decide) (by decide) (by decide) (by decide) (by decide)
    (by decide) (by decide) (by decide) (by decide) (by decide) (by decide) (by decide)
    (by decide) (by decide)
  exact ⟨h.2.2.1, h.2.2.2.1, h.2.2.2.2⟩

/-- C6: `show_summary` on zero records signals empty (`none`, distinct from
a zero-valued summary); on a non-empty record list it reports the total
count, the arithmetic means of confidence and latency, and per-language
counts that are a permutation of the insertion-ordered counts, sorted
descending by count with ties kept in first-seen order (the filter equation:
within each count value the original order is preserved); the embedding is a
pure projection, so the record sequence is not mutated.  Concretely, three
records with confidences 80, 90, 100 give mean 90. -/
theorem C6_summary :
    show_summary [] = none
    ∧ (∀ qs : List QueryRecord, qs ≠ [] →
        ∃ v, show_summary qs = some v
          ∧ v.total = qs.length
          ∧ v.avg_conf = (qs.map QueryRecord.confidence).sum / (qs.length : ℚ)
          ∧ v.avg_time = (qs.map QueryRecord.response_time).sum / (qs.length : ℚ)
          ∧ v.lang_counts.Pairwise (fun a b => b.2 ≤ a.2)
          ∧ v.lang_counts.Perm (langCounts qs)
          ∧ ∀ c, v.lang_counts.filter (fun p => p.2 == c)
              = (langCounts qs).filter (fun p => p.2 == c))
    ∧ (∃ v, show_summary
          [⟨"Spanish", [], [], 80, 1⟩, ⟨"Hindi", [], [], 90, 2⟩, ⟨"Spanish", [], [], 100, 3⟩]
          = some v
        ∧ v.total = 3 ∧ v.avg_conf = 90) := by
  refine ⟨rfl, ?_, ?_⟩
  · intro qs hqs
    have hne : qs.isEmpty = false := by
      cases qs with
      | nil => exact absurd rfl hqs
      | cons a t => rfl
    refine ⟨{ total := qs.length
              lang_counts := sortDesc (langCounts qs)
              avg_conf := (qs.map QueryRecord.confidence).sum / (qs.length : ℚ)
              avg_time := (qs.map QueryRecord.response_time).sum / (qs.length : ℚ) },
      ?_, rfl, rfl, rfl, sortDesc_pairwise _, sortDesc_perm _, fun c => sortDesc_filter _ c⟩
    unfold show_summary
    rw [if_neg (by rw [hne]; simp)]
  · refine ⟨_, rfl, rfl, ?_⟩
    show ((([⟨"Spanish", [], [], 80, 1⟩, ⟨"Hindi", [], [], 90, 2⟩,
      ⟨"Spanish", [], [], 100, 3⟩] : List QueryRecord).map QueryRecord.confidence).sum
        / (3 : ℚ)) = 90
    norm_num

/-- C6 witness: a one-record session has a defined summary with total 1. -/
theorem C6_summary_witness :
    ∃ v, show_summary [⟨"Hindi", [], [], 80, 1⟩] = some v ∧ v.total = 1 := by
  obtain ⟨v, hv1, hv2, -⟩ := C6_summary.2.1 [⟨"Hindi", [], [], 80, 1⟩] (by simp)
  exact ⟨v, hv1, hv2⟩
